import Mathlib

/-!
A shallow embedding of the zkVM guest program
`methods/guest/src/bin/is_even.rs`: the guest reads the whole input
buffer from stdin, strictly ABI-decodes it as a `U256`
(`<U256>::abi_decode(&input_bytes, true).unwrap()`), asserts equality
with the constant `U256::from(12345)`, and on success commits the
re-encoded value to the journal via `env::commit_slice`.
-/

/-- A byte, as carried in the guest input and journal buffers. -/
abbrev Byte := Fin 256

/-- Value of a little-endian byte list (head is least significant). -/
def leToNat : List Byte → Nat
  | [] => 0
  | b :: rest => b.val + 256 * leToNat rest

/-- The `k` little-endian bytes of `n` (truncating above `256 ^ k`). -/
def natToLe : Nat → Nat → List Byte
  | 0, _ => []
  | k + 1, n => ⟨n % 256, Nat.mod_lt _ (by omega)⟩ :: natToLe k (n / 256)

/-- Canonical ABI encoding of a `U256`: the 32 big-endian bytes of the
value, as produced by `alloy_sol_types` `abi_encode` on
`alloy_primitives::U256`. -/
def abi_encode (n : Nat) : List Byte :=
  (natToLe 32 n).reverse

/-- Strict ABI decoding of a `U256`, `<U256>::abi_decode(bytes, true)`:
with validation on, the buffer must be exactly the encoded size
(32 bytes), and any 32-byte word is a valid big-endian `uint256`. -/
def abi_decode (bytes : List Byte) : Option Nat :=
  if bytes.length = 32 then some (leToNat bytes.reverse) else none

/-- The constant `predefined_number = U256::from(12345)` in `main`. -/
def predefined_number : Nat := 12345

/-- Terminal outcome of one guest execution: abort inside the decode
step (the `unwrap` on `abi_decode` panics), abort at
`assert!(input_hash == predefined_number)`, or success carrying the
committed journal bytes. -/
inductive Outcome where
  | decodeFault
  | predicateFault
  | committed (journal : List Byte)
deriving DecidableEq

/-- One guest execution of `main`, following the source line by line:
the terminal outcome paired with the list of `env::commit_slice`
calls made, in order. -/
def guestRun (input_bytes : List Byte) : Outcome × List (List Byte) :=
  match abi_decode input_bytes with
  | none => (.decodeFault, [])
  | some input_hash =>
    if input_hash = predefined_number then
      (.committed (abi_encode input_hash), [abi_encode input_hash])
    else
      (.predicateFault, [])

/-- The terminal outcome of the guest on a given input buffer. -/
def guestMain (input_bytes : List Byte) : Outcome :=
  (guestRun input_bytes).1

/-- The journal writes performed by the guest on a given input. -/
def commitWrites (input_bytes : List Byte) : List (List Byte) :=
  (guestRun input_bytes).2

/-- What the host can observe of one guest execution: a valid proof
with a journal, or a failed proof-generation attempt. -/
inductive HostView where
  | proved (journal : List Byte)
  | failed
deriving DecidableEq

/-- Host-observable projection: both fault kinds collapse to `failed`. -/
def observe : Outcome → HostView
  | .committed j => .proved j
  | .decodeFault => .failed
  | .predicateFault => .failed

/-! Helper lemmas about the byte encoding. -/

theorem natToLe_length (k n : Nat) : (natToLe k n).length = k := by
  induction k generalizing n with
  | zero => rfl
  | succ k ih => simp [natToLe, ih]

theorem leToNat_lt (l : List Byte) : leToNat l < 256 ^ l.length := by
  induction l with
  | nil => simp [leToNat]
  | cons b rest ih =>
    have hb := b.isLt
    simp only [leToNat, List.length_cons, pow_succ]
    omega

theorem leToNat_natToLe (k n : Nat) (h : n < 256 ^ k) :
    leToNat (natToLe k n) = n := by
  induction k generalizing n with
  | zero => simp [pow_zero] at h; simp [natToLe, leToNat, h]
  | succ k ih =>
    have hdiv : n / 256 < 256 ^ k := by
      rw [Nat.div_lt_iff_lt_mul (by omega)]
      rw [pow_succ] at h
      omega
    simp only [natToLe, leToNat, ih _ hdiv]
    omega

theorem natToLe_leToNat (l : List Byte) :
    natToLe l.length (leToNat l) = l := by
  induction l with
  | nil => rfl
  | cons b rest ih =>
    have hb := b.isLt
    simp only [List.length_cons, natToLe, leToNat, List.cons.injEq]
    refine ⟨Fin.ext ?_, ?_⟩
    · show (b.val + 256 * leToNat rest) % 256 = b.val
      omega
    · have : (b.val + 256 * leToNat rest) / 256 = leToNat rest := by omega
      rw [this, ih]

theorem abi_encode_length (n : Nat) : (abi_encode n).length = 32 := by
  simp [abi_encode, natToLe_length]

theorem abi_decode_abi_encode (n : Nat) (h : n < 256 ^ 32) :
    abi_decode (abi_encode n) = some n := by
  simp [abi_decode, abi_encode, natToLe_length, leToNat_natToLe _ _ h]

theorem abi_encode_abi_decode (l : List Byte) (v : Nat)
    (h : abi_decode l = some v) : abi_encode v = l := by
  unfold abi_decode at h
  by_cases hl : l.length = 32
  · simp only [hl, if_true, Option.some.injEq] at h
    have hrev : l.reverse.length = 32 := by simp [hl]
    rw [abi_encode, ← h, ← hrev, natToLe_leToNat, List.reverse_reverse]
  · simp [hl] at h

theorem abi_decode_lt (l : List Byte) (v : Nat)
    (h : abi_decode l = some v) : v < 256 ^ 32 := by
  unfold abi_decode at h
  by_cases hl : l.length = 32
  · simp only [hl, if_true, Option.some.injEq] at h
    have := leToNat_lt l.reverse
    rw [List.length_reverse, hl] at this
    omega
  · simp [hl] at h

theorem predefined_number_lt : predefined_number < 256 ^ 32 := by
  norm_num [predefined_number]

/-! The claims. -/

/-- Claim C1: if the guest produces a commitment output at all, that
output is the canonical ABI encoding of a value equal to the
predefined constant 12345; no execution commits an unequal value,
because an unequal value aborts at the assertion before the commit. -/
theorem C1_commitment_is_constant (i j : List Byte)
    (h : guestMain i = .committed j) :
    j = abi_encode predefined_number ∧
      abi_decode j = some predefined_number := by
  cases hd : abi_decode i with
  | none => simp [guestMain, guestRun, hd] at h
  | some v =>
    by_cases hv : v = predefined_number
    · subst hv
      have h' : abi_encode predefined_number = j := by
        simpa [guestMain, guestRun, hd] using h
      exact ⟨h'.symm, h' ▸ abi_decode_abi_encode _ predefined_number_lt⟩
    · simp [guestMain, guestRun, hd, hv] at h

/-- Witness for C1 at the canonical encoding of 12345. -/
theorem C1_commitment_is_constant_witness :
    guestMain (abi_encode 12345) = .committed (abi_encode 12345) ∧
    (abi_encode 12345 = abi_encode predefined_number ∧
      abi_decode (abi_encode 12345) = some predefined_number) :=
  ⟨by decide,
    C1_commitment_is_constant (abi_encode 12345) (abi_encode 12345) (by decide)⟩

/-- Claim C2: every valid 32-byte encoding decoding to the predefined
constant makes the guest succeed, and the commitment decodes back to
the constant (round-trip). -/
theorem C2_valid_constant_succeeds (E : List Byte)
    (h : abi_decode E = some predefined_number) :
    ∃ j, guestMain E = .committed j ∧ abi_decode j = some predefined_number := by
  refine ⟨abi_encode predefined_number, ?_,
    abi_decode_abi_encode _ predefined_number_lt⟩
  simp [guestMain, guestRun, h]

/-- Witness for C2: the canonical encoding of decimal 12345 yields
success with commitment decoding back to 12345. -/
theorem C2_valid_constant_succeeds_witness :
    abi_decode (abi_encode 12345) = some predefined_number ∧
    ∃ j, guestMain (abi_encode 12345) = .committed j ∧
      abi_decode j = some predefined_number :=
  ⟨by decide, C2_valid_constant_succeeds (abi_encode 12345) (by decide)⟩

/-- Claim C3: every valid 32-byte encoding decoding to a value other
than the predefined constant makes the guest abort at the assertion,
with no commitment output. -/
theorem C3_unequal_value_aborts (E : List Byte) (v : Nat)
    (h : abi_decode E = some v) (hne : v ≠ predefined_number) :
    guestMain E = .predicateFault ∧ commitWrites E = [] := by
  constructor <;> simp [guestMain, commitWrites, guestRun, h, hne]

/-- Witness for C3: the canonical encoding of 0 aborts with no
commitment. -/
theorem C3_unequal_value_aborts_witness :
    abi_decode (abi_encode 0) = some 0 ∧ (0 : Nat) ≠ predefined_number ∧
    (guestMain (abi_encode 0) = .predicateFault ∧
      commitWrites (abi_encode 0) = []) :=
  ⟨by decide, by decide,
    C3_unequal_value_aborts (abi_encode 0) 0 (by decide) (by decide)⟩

/-- Claim C4: every buffer that is not exactly 32 bytes long fails the
strict decode itself, so the guest aborts in the decode step — before
the equality comparison is ever evaluated — with no commitment. -/
theorem C4_wrong_length_decode_fault (E : List Byte) (h : E.length ≠ 32) :
    abi_decode E = none ∧ guestMain E = .decodeFault ∧ commitWrites E = [] := by
  have hd : abi_decode E = none := by simp [abi_decode, h]
  exact ⟨hd, by simp [guestMain, guestRun, hd],
    by simp [commitWrites, guestRun, hd]⟩

/-- Witness for C4: the empty buffer aborts in the decode step. -/
theorem C4_wrong_length_decode_fault_witness :
    ([] : List Byte).length ≠ 32 ∧
    (abi_decode [] = none ∧ guestMain [] = .decodeFault ∧
      commitWrites [] = []) :=
  ⟨by decide, C4_wrong_length_decode_fault [] (by decide)⟩

/-- Claim C5: a decode-fault execution and a predicate-fault execution
are observationally identical from outside the guest: both abort
without committing, and the host-visible view does not distinguish
which fault kind occurred. -/
theorem C5_faults_indistinguishable (E1 E2 : List Byte) (v : Nat)
    (h1 : abi_decode E1 = none) (h2 : abi_decode E2 = some v)
    (hne : v ≠ predefined_number) :
    observe (guestMain E1) = observe (guestMain E2) ∧
    commitWrites E1 = commitWrites E2 ∧
    observe (guestMain E1) = .failed := by
  refine ⟨?_, ?_, ?_⟩ <;>
    simp [observe, guestMain, commitWrites, guestRun, h1, h2, hne]

/-- Witness for C5 at the empty buffer and the encoding of 0. -/
theorem C5_faults_indistinguishable_witness :
    abi_decode ([] : List Byte) = none ∧ abi_decode (abi_encode 0) = some 0 ∧
    (0 : Nat) ≠ predefined_number ∧
    (observe (guestMain []) = observe (guestMain (abi_encode 0)) ∧
      commitWrites [] = commitWrites (abi_encode 0) ∧
      observe (guestMain []) = .failed) :=
  ⟨by decide, by decide, by decide,
    C5_faults_indistinguishable [] (abi_encode 0) 0
      (by decide) (by decide) (by decide)⟩

/-- Claim C6: on every input, either the guest succeeds and its
commitment channel carries exactly the one committed journal, or the
execution aborts (host sees failure) and the commitment channel
carries nothing — no partial write occurs. -/
theorem C6_single_commit_on_success_only (i : List Byte) :
    (∃ j, guestMain i = .committed j ∧ commitWrites i = [j]) ∨
    (observe (guestMain i) = .failed ∧ commitWrites i = []) := by
  cases hd : abi_decode i with
  | none => right; simp [observe, guestMain, commitWrites, guestRun, hd]
  | some v =>
    by_cases hv : v = predefined_number
    · left
      exact ⟨abi_encode v, by simp [guestMain, guestRun, hd, hv],
        by simp [commitWrites, guestRun, hd, hv]⟩
    · right; simp [observe, guestMain, commitWrites, guestRun, hd, hv]

/-- Claim C7: the guest is a deterministic function of its input
bytes: two invocations on the same buffer that both commit produce
byte-identical commitment output. -/
theorem C7_deterministic_commitment (i j1 j2 : List Byte)
    (h1 : guestMain i = .committed j1) (h2 : guestMain i = .committed j2) :
    j1 = j2 := by
  have h := h1.symm.trans h2
  simpa using h

/-- Witness for C7 at the canonical encoding of 12345. -/
theorem C7_deterministic_commitment_witness :
    guestMain (abi_encode 12345) = .committed (abi_encode 12345) ∧
    abi_encode 12345 = abi_encode 12345 :=
  ⟨by decide,
    C7_deterministic_commitment (abi_encode 12345) (abi_encode 12345)
      (abi_encode 12345) (by decide) (by decide)⟩

/-- Claim C8: the strict decode of a `U256` succeeds on a buffer
exactly when the buffer is 32 bytes long: every 32-byte word is a
valid `uint256`, so wrong length is the only reachable decode fault. -/
theorem C8_decode_succeeds_iff_length_32 (bytes : List Byte) :
    (∃ v, abi_decode bytes = some v) ↔ bytes.length = 32 := by
  unfold abi_decode
  by_cases h : bytes.length = 32 <;> simp [h]

/-- Claim C9: whenever the guest succeeds, the committed bytes are
identical to the input bytes: re-encoding the decoded value is the
identity on valid 32-byte encodings. -/
theorem C9_commitment_equals_input (i j : List Byte)
    (h : guestMain i = .committed j) : j = i := by
  cases hd : abi_decode i with
  | none => simp [guestMain, guestRun, hd] at h
  | some v =>
    by_cases hv : v = predefined_number
    · subst hv
      have h' : abi_encode predefined_number = j := by
        simpa [guestMain, guestRun, hd] using h
      rw [← h']
      exact abi_encode_abi_decode i predefined_number hd
    · simp [guestMain, guestRun, hd, hv] at h

/-- Witness for C9 at the canonical encoding of 12345. -/
theorem C9_commitment_equals_input_witness :
    guestMain (abi_encode 12345) = .committed (abi_encode 12345) ∧
    abi_encode 12345 = abi_encode 12345 :=
  ⟨by decide,
    C9_commitment_equals_input (abi_encode 12345) (abi_encode 12345)
      (by decide)⟩

/-- Claim C10: every commitment output the guest produces is exactly
32 bytes long, the fixed ABI-encoded width of a `U256`. -/
theorem C10_journal_length_32 (i j : List Byte)
    (h : guestMain i = .committed j) : j.length = 32 := by
  cases hd : abi_decode i with
  | none => simp [guestMain, guestRun, hd] at h
  | some v =>
    by_cases hv : v = predefined_number
    · subst hv
      have h' : abi_encode predefined_number = j := by
        simpa [guestMain, guestRun, hd] using h
      rw [← h']
      exact abi_encode_length predefined_number
    · simp [guestMain, guestRun, hd, hv] at h

/-- Witness for C10 at the canonical encoding of 12345. -/
theorem C10_journal_length_32_witness :
    guestMain (abi_encode 12345) = .committed (abi_encode 12345) ∧
    (abi_encode 12345).length = 32 :=
  ⟨by decide,
    C10_journal_length_32 (abi_encode 12345) (abi_encode 12345) (by decide)⟩
